import Mathlib

/-!
Verification development for the two desktop-utility scripts of this
repository: the waybar media-player reporter (scripts/waybar/mediaplayer.py)
and the scheduled configuration fetcher (scripts/fetch_clash_config.py).
The Python code is shallowly embedded: pure string manipulation becomes Lean
string functions, each fallible external call (D-Bus property access, HTTP
request, JSON serialisation) becomes an Option- or sum-typed input, and the
stateful fetcher becomes an explicit state transformer on a small filesystem
record.
-/

namespace Mediaplayer

/-- Maximum display length of the formatted track text, the MAX_LENGTH
constant of the media-player script. -/
def MAX_LENGTH : Nat := 40

/-- Fixed icon table PLAYER_ICONS of the media-player script, keyed by
lowercased player short name. -/
def PLAYER_ICONS : List (String × String) :=
  [("spotify", ""), ("firefox", ""), ("chrome", ""), ("vlc", "󰕼")]

/-- Fallback icon DEFAULT_ICON of the media-player script. -/
def DEFAULT_ICON : String := "🎵"

/-- Value stored under a metadata key. The script reads xesam entries from a
string-keyed mapping whose artist entry may be a list of strings or a single
string; this inductive is that value universe. -/
inductive MValue where
  | vstr (s : String)
  | vlist (l : List String)
deriving DecidableEq

/-- Result of one read of the Metadata property: the xesam entries the script
consults (none when the key is absent), plus a flag recording whether any
other key is present, so that emptiness of the whole mapping is
representable. -/
structure Metadata where
  artistVal : Option MValue
  titleVal : Option String
  albumVal : Option String
  hasOtherKeys : Bool
deriving DecidableEq

/-- Emptiness of the metadata mapping, the truth value of the Python
expression `not metadata`. -/
def Metadata.isEmpty (md : Metadata) : Bool :=
  md.artistVal.isNone && md.titleVal.isNone && md.albumVal.isNone && !md.hasOtherKeys

/-- Remote player endpoint as observed through the bus. Each property access
in the script is a separate synchronous call that can fail; PlaybackStatus is
read once during enumeration (line 68 of the script) and once during metadata
extraction (line 96), and these are independent calls against a live process,
so they are modelled as two fields. A field holding none models that call
raising an exception. -/
structure Player where
  statusEnum : Option String
  statusMeta : Option String
  metadata : Option Metadata
deriving DecidableEq

/-- Session bus as the script observes it: ListNames may fail (none), and
bus.get on a full service name yields a player object or raises (none). -/
structure Bus where
  names : Option (List String)
  connect : String → Option Player

/-- Truth value of the Python expression s.startswith(pre): Python strings
compare by code points, so this is character-list prefix. -/
def strStartsWith (s pre : String) : Bool := pre.data.isPrefixOf s.data

/-- Value of the Python expression s.lower() for the strings this script
handles (service and player names are ASCII, where Python lowercasing agrees
with per-character ASCII lowercasing). -/
def strLower (s : String) : String := (s.data.map Char.toLower).asString

/-- Embedding of get_player_service_name. -/
def get_player_service_name (service_name : String) : String :=
  if strStartsWith service_name "org.mpris.MediaPlayer2." then service_name
  else "org.mpris.MediaPlayer2." ++ service_name

/-- Embedding of get_player_from_service: connect to the reconstructed full
service name, pairing the player with the name passed in; on failure the
except branch returns none. -/
def get_player_from_service (bus : Bus) (service_name : String) :
    Option (Player × String) :=
  (bus.connect (get_player_service_name service_name)).map (fun p => (p, service_name))

/-- Suffix of a string after its last dot, or the whole string when it has no
dot: the value of the Python expression service.split(".")[-1] used by
get_all_players. -/
def lastComponent (s : String) : String :=
  ((s.data.reverse.takeWhile (fun c => c != '.')).reverse).asString

/-- Loop of get_all_players over the listed service names: keep names with the
MPRIS prefix, reconnect via the short name (the part after the last dot),
query PlaybackStatus, and skip any name whose connection or status query
fails. -/
def get_all_players_go (bus : Bus) : List String → List (Player × String × String)
  | [] => []
  | service :: rest =>
    if strStartsWith service "org.mpris.MediaPlayer2." then
      match get_player_from_service bus (lastComponent service) with
      | some (player, name) =>
        match player.statusEnum with
        | some status => (player, name, status) :: get_all_players_go bus rest
        | none => get_all_players_go bus rest
      | none => get_all_players_go bus rest
    else get_all_players_go bus rest

/-- Embedding of get_all_players: enumerate registered names (the surrounding
except turns a ListNames failure into an empty result) and collect connectable
players with their short name and playback status. -/
def get_all_players (bus : Bus) : List (Player × String × String) :=
  match bus.names with
  | none => []
  | some services => get_all_players_go bus services

/-- Embedding of choose_best_player: first candidate whose status is Playing,
else first whose status is Paused, else none. -/
def choose_best_player (players : List (Player × String × String)) :
    Option (Player × String) :=
  match players.filter (fun p => p.2.2 == "Playing") with
  | q :: _ => some (q.1, q.2.1)
  | [] =>
    match players.filter (fun p => p.2.2 == "Paused") with
    | q :: _ => some (q.1, q.2.1)
    | [] => none

/-- Track info record built by get_metadata_info. -/
structure TrackInfo where
  artist : String
  title : String
  album : String
  status : String
deriving DecidableEq

/-- Embedding of get_metadata_info: read Metadata then PlaybackStatus (either
read failing lands in the except branch, giving none); report none when the
metadata mapping is empty or the status is Stopped; otherwise normalise the
artist entry (first element when a non-empty list, the string itself when a
string, empty otherwise) and default title and album to the empty string. -/
def get_metadata_info (player : Player) : Option TrackInfo :=
  match player.metadata, player.statusMeta with
  | some metadata, some status =>
    if metadata.isEmpty || status == "Stopped" then none
    else
      let artist :=
        match metadata.artistVal.getD (MValue.vlist []) with
        | MValue.vlist (a :: _) => a
        | MValue.vstr s => s
        | MValue.vlist [] => ""
      some ⟨artist, metadata.titleVal.getD "", metadata.albumVal.getD "", status⟩
  | _, _ => none

/-- First n characters of a string: the Python slice s[:n], which counts code
points exactly as Lean strings count characters. -/
def strTake (s : String) (n : Nat) : String := (s.data.take n).asString

/-- Embedding of format_display_text: pick artist dash title when both are
non-empty (Python truthiness of a string is non-emptiness), else title, else
artist, else the placeholder; then truncate to MAX_LENGTH characters by taking
MAX_LENGTH minus one characters and appending the ellipsis when the text is
longer than MAX_LENGTH. -/
def format_display_text (info : TrackInfo) : String :=
  let text :=
    if !info.artist.isEmpty && !info.title.isEmpty then
      info.artist ++ " - " ++ info.title
    else if !info.title.isEmpty then info.title
    else if !info.artist.isEmpty then info.artist
    else "Unknown Track"
  if MAX_LENGTH < text.length then strTake text (MAX_LENGTH - 1) ++ "…" else text

/-- Embedding of get_player_icon: the icon table looked up at the lowercased
name, with DEFAULT_ICON as the fallback of dict.get. -/
def get_player_icon (player_name : String) : String :=
  (PLAYER_ICONS.lookup (strLower player_name)).getD DEFAULT_ICON

/-- JSON value occurring in this script's output: strings and natural
numbers. -/
inductive JVal where
  | jstr (s : String)
  | jnum (n : Nat)
deriving DecidableEq

/-- JSON object as an insertion-ordered key-value list, matching the Python
dicts passed to json.dumps. -/
abbrev JObj := List (String × JVal)

/-- Escaping of one character as json.dumps performs it for the characters
this program can emit: quote, backslash, and the control characters newline,
tab and carriage return. -/
def escapeChar (c : Char) : List Char :=
  if c = '"' then ['\\', '"']
  else if c = '\\' then ['\\', '\\']
  else if c = '\n' then ['\\', 'n']
  else if c = '\t' then ['\\', 't']
  else if c = '\r' then ['\\', 'r']
  else [c]

/-- JSON string quoting with escaping. -/
def quoteStr (s : String) : String :=
  ('"' :: (s.data.flatMap escapeChar) ++ ['"']).asString

/-- Serialisation of one JSON value. -/
def dumpJVal : JVal → String
  | JVal.jstr s => quoteStr s
  | JVal.jnum n => Nat.repr n

/-- Serialisation of the entries of an object with the default separators of
json.dumps. -/
def dumpEntries : JObj → String
  | [] => ""
  | [kv] => quoteStr kv.1 ++ ": " ++ dumpJVal kv.2
  | kv :: rest => quoteStr kv.1 ++ ": " ++ dumpJVal kv.2 ++ ", " ++ dumpEntries rest

/-- Embedding of json.dumps for the objects this script emits. -/
def dumps (o : JObj) : String := "\x7b" ++ dumpEntries o ++ "\x7d"

/-- Line content written by one call of print_json: the serialised object (the
trailing newline added by the write call is the line terminator and not part
of the line). The fallback inside print_json for a failing json.dumps cannot
fire here because dumps is total on this value universe. -/
def print_json (o : JObj) : String := dumps o

/-- Invocation environment of main: the bus when get_bus succeeds, none when
get_bus fails (missing module or connection error). -/
structure Env where
  bus : Option Bus

/-- Tooltip string built by main: artist dash title, an album line when the
album string is non-empty, then status and player lines. -/
def tooltipFor (info : TrackInfo) (player_name : String) : String :=
  info.artist ++ " - " ++ info.title ++
    (if !info.album.isEmpty then "\nAlbum: " ++ info.album else "") ++
    "\nStatus: " ++ info.status ++ "\nPlayer: " ++ player_name

/-- Objects passed to print_json during one run of main, in order: the single
empty object on any failure (no bus, no players, no selection winner, no
metadata), or the single result object. The KeyboardInterrupt and generic
exception handlers of main also emit exactly the empty object; every failure
source of the embedding is explicit in the inputs, so each branch below emits
exactly one object. -/
def mainEmits (env : Env) : List JObj :=
  match env.bus with
  | none => [[]]
  | some bus =>
    let players := get_all_players bus
    if players.isEmpty then [[]]
    else
      match choose_best_player players with
      | none => [[]]
      | some (best_player, player_name) =>
        match get_metadata_info best_player with
        | none => [[]]
        | some info =>
          let text := format_display_text info
          let icon := get_player_icon player_name
          let base : JObj :=
            [("text", JVal.jstr text),
             ("tooltip", JVal.jstr (tooltipFor info player_name)),
             ("class", JVal.jstr ("player-" ++ strLower player_name)),
             ("alt", JVal.jstr player_name),
             ("percentage", JVal.jnum 0)]
          if icon != DEFAULT_ICON then [base ++ [("icon", JVal.jstr icon)]]
          else [base]

/-- Standard-output lines of one run of main. -/
def mainStdout (env : Env) : List String := (mainEmits env).map print_json

/-- Empty-object line as print_json writes it. -/
def emptyLine : String := "\x7b\x7d"

/-- Display text before truncation, as the specification words it: artist dash
title when both are present, else whichever of the two is present, else the
fixed placeholder. -/
def displayTextBase (info : TrackInfo) : String :=
  if info.artist ≠ "" ∧ info.title ≠ "" then info.artist ++ " - " ++ info.title
  else if info.title ≠ "" then info.title
  else if info.artist ≠ "" then info.artist
  else "Unknown Track"

/-- Enumeration result as claim C3 states it: one triple for every registered
name carrying the MPRIS prefix whose own connection and status query succeed,
with the part after the last dot as short name, in bus-enumeration order, and
failing names skipped. -/
def reachableRegisteredPlayers (bus : Bus) : List (Player × String × String) :=
  match bus.names with
  | none => []
  | some services =>
    services.filterMap (fun service =>
      if strStartsWith service "org.mpris.MediaPlayer2." then
        match bus.connect service with
        | some player =>
          match player.statusEnum with
          | some status => some (player, lastComponent service, status)
          | none => none
        | none => none
      else none)

/-- Enumeration result as the amended claim words it: one triple per
registered name carrying the MPRIS prefix, in bus-enumeration order, for
exactly those names where connecting under the re-prefixed last dot-component
of the name succeeds and the status read on that connection succeeds; every
other name is skipped without aborting the enumeration. -/
def enumerationSpec (bus : Bus) : List (Player × String × String) :=
  match bus.names with
  | none => []
  | some services =>
    services.filterMap (fun service =>
      if strStartsWith service "org.mpris.MediaPlayer2." then
        match bus.connect (get_player_service_name (lastComponent service)) with
        | some player =>
          match player.statusEnum with
          | some status => some (player, lastComponent service, status)
          | none => none
        | none => none
      else none)

/-- Registered multi-component MPRIS name used against claim C3: the shape
real browser players register on the bus. -/
def dottedName : String := "org.mpris.MediaPlayer2.firefox.instance123"

/-- Player reachable under dottedName. -/
def dottedPlayer : Player :=
  ⟨some "Playing", some "Playing", some ⟨some (MValue.vstr "A"), some "T", none, false⟩⟩

/-- Bus whose only registered media player carries a multi-component suffix;
the endpoint itself is reachable and answers its status query. -/
def dottedBus : Bus :=
  ⟨some [dottedName], fun s => if s = dottedName then some dottedPlayer else none⟩

/-- Environment with no obtainable bus connection. -/
def envNoBus : Env := ⟨none⟩

/-- Metadata mapping holding artist A and title T. -/
def mdW : Metadata := ⟨some (MValue.vstr "A"), some "T", none, false⟩

/-- Player that reported Paused during enumeration and Stopped at the later
status read of metadata extraction. -/
def stoppedPlayer : Player := ⟨some "Paused", some "Stopped", some mdW⟩

/-- Bus exposing stoppedPlayer under a single-component MPRIS name. -/
def stoppedBus : Bus :=
  ⟨some ["org.mpris.MediaPlayer2.spotify"],
   fun s => if s = "org.mpris.MediaPlayer2.spotify" then some stoppedPlayer else none⟩

/-- Environment built on stoppedBus. -/
def stoppedEnv : Env := ⟨some stoppedBus⟩

/-- Metadata mapping with a list-valued artist entry, as MPRIS delivers it. -/
def mdPlaying : Metadata := ⟨some (MValue.vlist ["A"]), some "T", none, false⟩

/-- Player playing a track with artist A and title T. -/
def playingPlayer : Player := ⟨some "Playing", some "Playing", some mdPlaying⟩

/-- Bus exposing playingPlayer under the spotify MPRIS name. -/
def playingBus : Bus :=
  ⟨some ["org.mpris.MediaPlayer2.spotify"],
   fun s => if s = "org.mpris.MediaPlayer2.spotify" then some playingPlayer else none⟩

/-- Environment built on playingBus. -/
def playingEnv : Env := ⟨some playingBus⟩

/-- Track info extracted from mdPlaying. -/
def playingInfo : TrackInfo := ⟨"A", "T", "", "Playing"⟩

/-- Track record whose title alone exceeds the display maximum: forty-five
characters. -/
def longTrack : TrackInfo :=
  ⟨"", "aaaaaaaaaaaaaaaaaaaaaaaaaaaaaaaaaaaaaaaaaaaaa", "", "Playing"⟩

end Mediaplayer

namespace Fetcher

/-- Configured source URL, the FILE_URL constant. -/
def FILE_URL : String :=
  "https://feed.iggv5.com/c/cfdde660-45ef-4e79-a6e8-578b16ba6aa8/platform/clash/iGG-iGuge"

/-- Configured destination directory, the SAVE_DIRECTORY constant. -/
def SAVE_DIRECTORY : String := "/home/wanzhengwang/.config/clash"

/-- Configured destination filename, the SAVE_FILENAME constant; the fallback
branch of download_file for a missing filename is dead under this
configuration. -/
def SAVE_FILENAME : String := "config.yaml"

/-- Destination path, the os.path.join of directory and filename. -/
def save_path : String := SAVE_DIRECTORY ++ "/" ++ SAVE_FILENAME

/-- Outcome of the streamed GET: a transport failure (requests raising a
RequestException) or a response with an HTTP status code and a body. -/
inductive HttpOutcome where
  | connError
  | response (status : Nat) (body : List Nat)

/-- Filesystem state the script touches: whether the destination directory
exists, and the destination file content, none when the file is absent. -/
structure FS where
  dirExists : Bool
  file : Option (List Nat)
deriving DecidableEq

/-- Log lines printed by download_file, abstracted by kind together with their
variable parts. -/
inductive LogMsg where
  | start
  | mkdirMsg (dir : String)
  | success (path : String)
  | netFail
  | unknownFail
deriving DecidableEq

/-- Embedding of download_file as a state transformer on the filesystem,
returning the new state and the printed log lines in order. The start line is
printed first; inside the try block the directory is created when absent (with
its log line), then the GET outcome is examined: a transport failure, or a 4xx
or 5xx status on which raise_for_status raises, aborts the attempt before the
destination file is opened and the RequestException handler prints the network
failure line; otherwise the body is written chunk by chunk, fully replacing
the file, and the success line is printed. The unknownFail line belongs to the
generic handler for non-network faults, which is unreachable here because the
modelled filesystem operations do not fail. -/
def download_file (h : HttpOutcome) (fs : FS) : FS × List LogMsg :=
  let log1 : List LogMsg :=
    if fs.dirExists then [LogMsg.start]
    else [LogMsg.start, LogMsg.mkdirMsg SAVE_DIRECTORY]
  match h with
  | HttpOutcome.connError => (⟨true, fs.file⟩, log1 ++ [LogMsg.netFail])
  | HttpOutcome.response status body =>
    if 400 ≤ status ∧ status < 600 then (⟨true, fs.file⟩, log1 ++ [LogMsg.netFail])
    else (⟨true, some body⟩, log1 ++ [LogMsg.success save_path])

/-- Consecutive scheduled attempts: each tick runs download_file on that tick's
GET outcome, threading the filesystem state; no attempt outcome stops the
sequence, mirroring that download_file never lets an exception escape. -/
def run_attempts : List HttpOutcome → FS → FS × List (List LogMsg)
  | [], fs => (fs, [])
  | h :: rest, fs =>
    let r := download_file h fs
    let r2 := run_attempts rest r.1
    (r2.1, r.2 :: r2.2)

/-- Scheduling interval in seconds: schedule.every(1).hour. -/
def INTERVAL_SECONDS : Nat := 3600

/-- Sleep performed between schedule checks, in seconds: time.sleep(1). -/
def POLL_SLEEP_SECONDS : ℚ := 1

/-- Poll loop trace over discrete seconds. At each second the loop calls
run_pending; when the job is due (next_run at or before now) it fires and the
schedule library reschedules it one interval after the current time; then the
loop sleeps one second. Each trace entry records the second of the check and
whether the job fired at it. -/
def pollTrace : Nat → Nat → Nat → List (Nat × Bool)
  | 0, _, _ => []
  | Nat.succ k, now, next_run =>
    if next_run ≤ now then
      (now, true) :: pollTrace k (now + 1) (now + INTERVAL_SECONDS)
    else (now, false) :: pollTrace k (now + 1) next_run

/-- Times, in seconds from process start, at which a download attempt runs
within the first n seconds: the immediate manual attempt at time zero, then
the attempts fired by the poll loop, whose job is created at time zero with
next_run one interval ahead. -/
def attemptTimes (n : Nat) : List Nat :=
  0 :: ((pollTrace n 0 INTERVAL_SECONDS).filter (fun x => x.2)).map (fun x => x.1)

/-- Classification of a log line as a failure report. -/
def isFailureLine : LogMsg → Bool
  | LogMsg.netFail => true
  | LogMsg.unknownFail => true
  | _ => false

/-- Classification of a log line as an attempt outcome: the success report or
either failure report. -/
def isOutcomeLine : LogMsg → Bool
  | LogMsg.success _ => true
  | LogMsg.netFail => true
  | LogMsg.unknownFail => true
  | _ => false

/-- Filesystem whose destination directory exists and whose destination file
is absent. -/
def fsReady : FS := ⟨true, none⟩

/-- Filesystem with neither the destination directory nor the file. -/
def fsBare : FS := ⟨false, none⟩

end Fetcher

namespace Mediaplayer

/-- Character count of a string is the length of its character list. -/
theorem string_length_data (s : String) : s.length = s.data.length := rfl

/-- Characters of a string built from a character list. -/
theorem asString_data (l : List Char) : l.asString.data = l := rfl

/-- Length of a Python-style slice. -/
theorem strTake_length (s : String) (n : Nat) : (strTake s n).length = min n s.length := by
  rw [strTake, string_length_data, asString_data, List.length_take, string_length_data]

/-- Emptiness test of the empty string. -/
theorem empty_isEmpty : ("" : String).isEmpty = true := rfl

/-- Falsehood of the emptiness test characterises non-empty strings. -/
theorem isEmpty_eq_false_iff (s : String) : s.isEmpty = false ↔ s ≠ "" := by
  rw [← Bool.not_eq_true]
  exact not_congr (String.isEmpty_iff s)

/-- Claim C2: the selection returns the first candidate in list order whose
status is Playing when one exists, else the first whose status is Paused, else
none; in particular, in any two-candidate list with one Paused and one Playing
entry the Playing entry wins in either order. -/
theorem choose_best_player_priority (players : List (Player × String × String)) :
    (choose_best_player players =
      match players.find? (fun q => q.2.2 == "Playing") with
      | some q => some (q.1, q.2.1)
      | none =>
        match players.find? (fun q => q.2.2 == "Paused") with
        | some q => some (q.1, q.2.1)
        | none => none) ∧
    ∀ (p1 : Player) (n1 : String) (p2 : Player) (n2 : String),
      choose_best_player [(p1, n1, "Paused"), (p2, n2, "Playing")] = some (p2, n2) ∧
      choose_best_player [(p2, n2, "Playing"), (p1, n1, "Paused")] = some (p2, n2) := by
  constructor
  · have e1 : players.find? (fun q => q.2.2 == "Playing") =
        (players.filter (fun q => q.2.2 == "Playing")).head? :=
      (List.filter_head? _ _).symm
    have e2 : players.find? (fun q => q.2.2 == "Paused") =
        (players.filter (fun q => q.2.2 == "Paused")).head? :=
      (List.filter_head? _ _).symm
    rw [e1, e2, choose_best_player]
    cases players.filter (fun q => q.2.2 == "Playing") with
    | cons q t => rfl
    | nil => cases players.filter (fun q => q.2.2 == "Paused") with
      | cons q t => rfl
      | nil => rfl
  · intro p1 n1 p2 n2
    exact ⟨rfl, rfl⟩

/-- Claim C4: the display text is artist dash title when both are non-empty,
else the non-empty one of the two, else the placeholder; when that base text
is longer than MAX_LENGTH the result is its first MAX_LENGTH minus one
characters with the ellipsis appended, hence exactly MAX_LENGTH characters
ending in the ellipsis, and otherwise the base text unchanged. -/
theorem format_display_text_spec (info : TrackInfo) :
    (format_display_text info =
      if MAX_LENGTH < (displayTextBase info).length
      then strTake (displayTextBase info) (MAX_LENGTH - 1) ++ "…"
      else displayTextBase info) ∧
    (MAX_LENGTH < (displayTextBase info).length →
      (format_display_text info).length = MAX_LENGTH ∧
      (format_display_text info).data.getLast? = some '…') ∧
    ((displayTextBase info).length ≤ MAX_LENGTH →
      format_display_text info = displayTextBase info) := by
  have hbase :
      (if !info.artist.isEmpty && !info.title.isEmpty then
        info.artist ++ " - " ++ info.title
      else if !info.title.isEmpty then info.title
      else if !info.artist.isEmpty then info.artist
      else "Unknown Track") = displayTextBase info := by
    by_cases ha : info.artist = "" <;> by_cases ht : info.title = "" <;>
      simp [displayTextBase, ha, ht, empty_isEmpty, isEmpty_eq_false_iff]
  have h1 : format_display_text info =
      if MAX_LENGTH < (displayTextBase info).length
      then strTake (displayTextBase info) (MAX_LENGTH - 1) ++ "…"
      else displayTextBase info := by
    simp only [format_display_text]
    rw [hbase]
  refine ⟨h1, fun h => ⟨?_, ?_⟩, fun h => ?_⟩
  · rw [h1, if_pos h, String.length_append, strTake_length]
    have : MAX_LENGTH - 1 ≤ (displayTextBase info).length := by
      unfold MAX_LENGTH at h ⊢; omega
    rw [min_eq_left this]
    rfl
  · rw [h1, if_pos h, String.data_append]
    exact List.getLast?_concat _
  · rw [h1, if_neg (by omega)]

/-- Witness for claim C4 at a forty-five character title: the base text
exceeds the maximum and the output has exactly MAX_LENGTH characters ending in
the ellipsis. -/
theorem format_display_text_spec_witness :
    (format_display_text longTrack).length = MAX_LENGTH ∧
    (format_display_text longTrack).data.getLast? = some '…' :=
  (format_display_text_spec longTrack).2.1 (by decide)

/-- Enumeration loop written as a filterMap over the listed names, the key
step for the amended claim C3: each kept name is looked up under the
re-prefixed last dot-component, not under the registered name itself. -/
theorem get_all_players_go_filterMap (bus : Bus) (services : List String) :
    get_all_players_go bus services =
      services.filterMap (fun service =>
        if strStartsWith service "org.mpris.MediaPlayer2." then
          match bus.connect (get_player_service_name (lastComponent service)) with
          | some player =>
            match player.statusEnum with
            | some status => some (player, lastComponent service, status)
            | none => none
          | none => none
        else none) := by
  induction services with
  | nil => rfl
  | cons s rest ih =>
    rw [List.filterMap_cons, get_all_players_go]
    by_cases h : strStartsWith s "org.mpris.MediaPlayer2." = true
    · cases hc : bus.connect (get_player_service_name (lastComponent s)) with
      | none => simp [get_player_from_service, h, hc, ih]
      | some player =>
        cases hs : player.statusEnum with
        | none => simp [get_player_from_service, h, hc, hs, ih]
        | some status => simp [get_player_from_service, h, hc, hs, ih]
    · simp only [Bool.not_eq_true] at h
      simp [h, ih]

/-- Counterexample to claim C3 as stated: a registered, reachable media-player
endpoint whose name carries an extra dot-separated component is absent from
the enumeration result, because the script reconnects under the re-prefixed
last component instead of the registered name. -/
theorem get_all_players_drops_dotted_name :
    get_all_players dottedBus ≠ reachableRegisteredPlayers dottedBus ∧
    get_all_players dottedBus = [] ∧
    reachableRegisteredPlayers dottedBus =
      [(dottedPlayer, "instance123", "Playing")] := by
  refine ⟨?_, ?_, ?_⟩ <;> decide

/-- Amended claim C3: the enumeration yields, in bus order, one triple per
registered name with the MPRIS prefix for which connecting under the
re-prefixed last dot-component succeeds and the status read succeeds, and
skips every other name without aborting; names with multi-component suffixes
are therefore looked up under a mangled name rather than their registered
one. -/
theorem get_all_players_mangled_lookup (bus : Bus) :
    get_all_players bus = enumerationSpec bus := by
  rw [get_all_players, enumerationSpec]
  cases h : bus.names with
  | none => rfl
  | some services => exact get_all_players_go_filterMap bus services

/-- Serialisation of the empty object is the empty-object line. -/
theorem print_json_nil : print_json [] = emptyLine := by decide

/-- Digit characters are never the newline character. -/
theorem digitChar_ne_newline (k : Nat) : Nat.digitChar k ≠ '\n' := by
  by_cases h0 : k = 0
  · subst h0; decide
  by_cases h1 : k = 1
  · subst h1; decide
  by_cases h2 : k = 2
  · subst h2; decide
  by_cases h3 : k = 3
  · subst h3; decide
  by_cases h4 : k = 4
  · subst h4; decide
  by_cases h5 : k = 5
  · subst h5; decide
  by_cases h6 : k = 6
  · subst h6; decide
  by_cases h7 : k = 7
  · subst h7; decide
  by_cases h8 : k = 8
  · subst h8; decide
  by_cases h9 : k = 9
  · subst h9; decide
  by_cases h10 : k = 10
  · subst h10; decide
  by_cases h11 : k = 11
  · subst h11; decide
  by_cases h12 : k = 12
  · subst h12; decide
  by_cases h13 : k = 13
  · subst h13; decide
  by_cases h14 : k = 14
  · subst h14; decide
  by_cases h15 : k = 15
  · subst h15; decide
  rw [Nat.digitChar, if_neg h0, if_neg h1, if_neg h2, if_neg h3, if_neg h4, if_neg h5,
    if_neg h6, if_neg h7, if_neg h8, if_neg h9, if_neg h10, if_neg h11, if_neg h12,
    if_neg h13, if_neg h14, if_neg h15]
  decide

/-- Characters produced by the digit accumulator are digit characters or come
from the accumulator, hence never the newline character. -/
theorem toDigitsCore_ne_newline (fuel : Nat) :
    ∀ (n : Nat) (acc : List Char), (∀ c ∈ acc, c ≠ '\n') →
      ∀ c ∈ Nat.toDigitsCore 10 fuel n acc, c ≠ '\n' := by
  induction fuel with
  | zero => intro n acc hacc c hc; exact hacc c hc
  | succ fuel ih =>
    intro n acc hacc c hc
    rw [Nat.toDigitsCore] at hc
    by_cases h : n / 10 = 0
    · rw [if_pos h] at hc
      rcases List.mem_cons.1 hc with rfl | hc
      · exact digitChar_ne_newline _
      · exact hacc c hc
    · rw [if_neg h] at hc
      refine ih _ _ ?_ c hc
      intro c' hc'
      rcases List.mem_cons.1 hc' with rfl | hc'
      · exact digitChar_ne_newline _
      · exact hacc c' hc'

/-- Decimal rendering of a natural number contains no newline. -/
theorem natRepr_no_newline (n : Nat) : '\n' ∉ (Nat.repr n).data := by
  intro h
  have : ('\n' : Char) ≠ '\n' :=
    toDigitsCore_ne_newline (n + 1) n [] (by intro c hc; cases hc) '\n' h
  exact this rfl

/-- JSON character escaping never produces a newline. -/
theorem escapeChar_ne_newline (c c' : Char) (h : c' ∈ escapeChar c) : c' ≠ '\n' := by
  rw [escapeChar] at h
  by_cases h1 : c = '"'
  · rw [if_pos h1] at h
    rcases List.mem_cons.1 h with rfl | h
    · decide
    · rcases List.mem_singleton.1 h with rfl
      decide
  rw [if_neg h1] at h
  by_cases h2 : c = '\\'
  · rw [if_pos h2] at h
    rcases List.mem_cons.1 h with rfl | h
    · decide
    · rcases List.mem_singleton.1 h with rfl
      decide
  rw [if_neg h2] at h
  by_cases h3 : c = '\n'
  · rw [if_pos h3] at h
    rcases List.mem_cons.1 h with rfl | h
    · decide
    · rcases List.mem_singleton.1 h with rfl
      decide
  rw [if_neg h3] at h
  by_cases h4 : c = '\t'
  · rw [if_pos h4] at h
    rcases List.mem_cons.1 h with rfl | h
    · decide
    · rcases List.mem_singleton.1 h with rfl
      decide
  rw [if_neg h4] at h
  by_cases h5 : c = '\x0d'
  · rw [if_pos h5] at h
    rcases List.mem_cons.1 h with rfl | h
    · decide
    · rcases List.mem_singleton.1 h with rfl
      decide
  rw [if_neg h5] at h
  rcases List.mem_singleton.1 h with rfl
  exact h3

/-- Quoted JSON strings contain no newline. -/
theorem quoteStr_no_newline (s : String) : '\n' ∉ (quoteStr s).data := by
  rw [quoteStr, asString_data]
  intro h
  rcases List.mem_cons.1 h with h | h
  · exact absurd h (by decide)
  rcases List.mem_append.1 h with h | h
  · obtain ⟨c, _, hc⟩ := List.mem_flatMap.1 h
    exact escapeChar_ne_newline c '\n' hc rfl
  · exact absurd (List.mem_singleton.1 h) (by decide)

/-- Serialised JSON values contain no newline. -/
theorem dumpJVal_no_newline (v : JVal) : '\n' ∉ (dumpJVal v).data := by
  cases v with
  | jstr s => exact quoteStr_no_newline s
  | jnum n => exact natRepr_no_newline n

/-- Serialised object entries contain no newline. -/
theorem dumpEntries_no_newline (o : JObj) : '\n' ∉ (dumpEntries o).data := by
  induction o with
  | nil => intro h; exact absurd h (by decide)
  | cons kv rest ih =>
    cases rest with
    | nil =>
      show '\n' ∉ (quoteStr kv.1 ++ ": " ++ dumpJVal kv.2).data
      rw [String.data_append, String.data_append]
      intro h
      rcases List.mem_append.1 h with h | h
      · rcases List.mem_append.1 h with h | h
        · exact quoteStr_no_newline kv.1 h
        · exact absurd h (by decide)
      · exact dumpJVal_no_newline kv.2 h
    | cons kv2 rest2 =>
      show '\n' ∉
        (quoteStr kv.1 ++ ": " ++ dumpJVal kv.2 ++ ", " ++ dumpEntries (kv2 :: rest2)).data
      rw [String.data_append, String.data_append, String.data_append, String.data_append]
      intro h
      rcases List.mem_append.1 h with h | h
      · rcases List.mem_append.1 h with h | h
        · rcases List.mem_append.1 h with h | h
          · rcases List.mem_append.1 h with h | h
            · exact quoteStr_no_newline kv.1 h
            · exact absurd h (by decide)
          · exact dumpJVal_no_newline kv.2 h
        · exact absurd h (by decide)
      · exact ih h

/-- Serialised objects contain no newline, so each print_json output is one
line. -/
theorem dumps_no_newline (o : JObj) : '\n' ∉ (dumps o).data := by
  rw [dumps, String.data_append, String.data_append]
  intro h
  rcases List.mem_append.1 h with h | h
  · rcases List.mem_append.1 h with h | h
    · exact absurd h (by decide)
    · exact dumpEntries_no_newline o h
  · exact absurd h (by decide)

/-- Main always hands print_json exactly one object. -/
theorem mainEmits_singleton (env : Env) : ∃ o : JObj, mainEmits env = [o] := by
  rw [← List.length_eq_one]
  rcases env with ⟨_ | bus⟩
  · rfl
  by_cases hp : (get_all_players bus).isEmpty = true
  · simp [mainEmits, hp]
  cases hsel : choose_best_player (get_all_players bus) with
  | none => simp [mainEmits, hp, hsel]
  | some q =>
    obtain ⟨p, n⟩ := q
    cases hmi : get_metadata_info p with
    | none => simp [mainEmits, hp, hsel, hmi]
    | some info =>
      by_cases hi : (get_player_icon n != DEFAULT_ICON) = true <;>
        simp [mainEmits, hp, hsel, hmi, hi]

/-- Claim C1: every invocation of main writes exactly one line to standard
output, that line is the serialisation of a JSON object and contains no
newline, and on every failure stage (no bus, no players, no selection winner,
missing metadata) the line is exactly the empty object. -/
theorem main_emits_single_json_line (env : Env) :
    (mainStdout env).length = 1 ∧
    (∀ s, s ∈ mainStdout env → (∃ o : JObj, s = print_json o) ∧ '\n' ∉ s.data) ∧
    (env.bus = none → mainStdout env = [emptyLine]) ∧
    (∀ bus, env.bus = some bus →
      (get_all_players bus = [] ∨
       choose_best_player (get_all_players bus) = none ∨
       ∃ p n, choose_best_player (get_all_players bus) = some (p, n) ∧
         get_metadata_info p = none) →
      mainStdout env = [emptyLine]) := by
  obtain ⟨o, ho⟩ := mainEmits_singleton env
  refine ⟨by simp [mainStdout, ho], ?_, ?_, ?_⟩
  · intro s hs
    rw [mainStdout, ho] at hs
    simp only [List.map_cons, List.map_nil, List.mem_singleton] at hs
    subst hs
    exact ⟨⟨o, rfl⟩, dumps_no_newline o⟩
  · intro hb
    simp [mainStdout, mainEmits, hb, print_json_nil]
  · intro bus hb hfail
    rw [mainStdout]
    simp only [mainEmits, hb]
    rcases hfail with h | h | ⟨p, n, hsel, hmi⟩
    · simp [h, print_json_nil]
    · by_cases hp : (get_all_players bus).isEmpty = true
      · simp [hp, print_json_nil]
      · simp [hp, h, print_json_nil]
    · by_cases hp : (get_all_players bus).isEmpty = true
      · simp [hp, print_json_nil]
      · simp [hp, hsel, hmi, print_json_nil]

/-- Witness for claim C1 at the environment with no bus connection: one line,
the empty object. -/
theorem main_emits_single_json_line_witness :
    (mainStdout envNoBus).length = 1 ∧ mainStdout envNoBus = [emptyLine] :=
  ⟨(main_emits_single_json_line envNoBus).1,
   (main_emits_single_json_line envNoBus).2.2.1 rfl⟩

/-- Claim C5: when the selected candidate's metadata read is empty or its
status read at extraction time is Stopped, metadata extraction reports no data
and the run prints exactly the empty object. -/
theorem metadata_empty_or_stopped_gives_empty_output
    (env : Env) (bus : Bus) (p : Player) (n : String) (md : Metadata) (st : String)
    (hb : env.bus = some bus)
    (hsel : choose_best_player (get_all_players bus) = some (p, n))
    (hmd : p.metadata = some md)
    (hst : p.statusMeta = some st)
    (hfail : md.isEmpty = true ∨ st = "Stopped") :
    get_metadata_info p = none ∧ mainStdout env = [emptyLine] := by
  have hnone : get_metadata_info p = none := by
    have hcond : (md.isEmpty || st == "Stopped") = true := by
      rcases hfail with h | h <;> simp [h]
    simp [get_metadata_info, hmd, hst, hcond]
  refine ⟨hnone, ?_⟩
  rw [mainStdout]
  simp only [mainEmits, hb]
  by_cases hp : (get_all_players bus).isEmpty = true
  · simp [hp, print_json_nil]
  · simp [hp, hsel, hnone, print_json_nil]

/-- Witness for claim C5: a candidate enumerated as Paused and selected, whose
status read during metadata extraction is Stopped, yields no data and the
empty-object output. -/
theorem metadata_empty_or_stopped_gives_empty_output_witness :
    get_metadata_info stoppedPlayer = none ∧ mainStdout stoppedEnv = [emptyLine] :=
  metadata_empty_or_stopped_gives_empty_output stoppedEnv stoppedBus stoppedPlayer
    "spotify" mdW "Stopped" rfl (by decide) rfl rfl (Or.inr rfl)

/-- Values of the fixed icon table are never the default icon, so a successful
table lookup and a non-default icon coincide. -/
theorem lookup_icons_ne_default (k v : String) (h : PLAYER_ICONS.lookup k = some v) :
    v ≠ DEFAULT_ICON := by
  rw [PLAYER_ICONS] at h
  by_cases h1 : (k == "spotify") = true
  · simp [List.lookup, h1] at h
    subst h; decide
  by_cases h2 : (k == "firefox") = true
  · simp [List.lookup, h1, h2] at h
    subst h; decide
  by_cases h3 : (k == "chrome") = true
  · simp [List.lookup, h1, h2, h3] at h
    subst h; decide
  by_cases h4 : (k == "vlc") = true
  · simp [List.lookup, h1, h2, h3, h4] at h
    subst h; decide
  · simp [List.lookup, h1, h2, h3, h4] at h

/-- Resolving a non-default icon is the same as the lowercased name hitting
the icon table. -/
theorem get_player_icon_ne_default (name : String) :
    (get_player_icon name != DEFAULT_ICON) =
      (PLAYER_ICONS.lookup (strLower name)).isSome := by
  cases h : PLAYER_ICONS.lookup (strLower name) with
  | none => simp [get_player_icon, h]
  | some v =>
    have hv : v ≠ DEFAULT_ICON := lookup_icons_ne_default _ v h
    simp [get_player_icon, h, hv]

/-- Selection never succeeds on an empty candidate list. -/
theorem choose_best_player_nil : choose_best_player [] = none := rfl

/-- Claim C7: a successful run emits one object holding exactly the keys text,
tooltip, class, alt and percentage, plus icon exactly when the lowercased
short name hits the icon table; text is the display text, class is player-
followed by the lowercased name, alt is the name and percentage is zero. -/
theorem success_output_fields
    (env : Env) (bus : Bus) (p : Player) (n : String) (info : TrackInfo)
    (hb : env.bus = some bus)
    (hsel : choose_best_player (get_all_players bus) = some (p, n))
    (hmi : get_metadata_info p = some info) :
    ∃ o : JObj, mainEmits env = [o] ∧
      o.map Prod.fst =
        ["text", "tooltip", "class", "alt", "percentage"] ++
          (if (PLAYER_ICONS.lookup (strLower n)).isSome then ["icon"] else []) ∧
      o.lookup "text" = some (JVal.jstr (format_display_text info)) ∧
      o.lookup "tooltip" = some (JVal.jstr (tooltipFor info n)) ∧
      o.lookup "class" = some (JVal.jstr ("player-" ++ strLower n)) ∧
      o.lookup "alt" = some (JVal.jstr n) ∧
      o.lookup "percentage" = some (JVal.jnum 0) ∧
      (o.lookup "icon" = if (PLAYER_ICONS.lookup (strLower n)).isSome
        then some (JVal.jstr (get_player_icon n)) else none) := by
  have hne : ¬((get_all_players bus).isEmpty = true) := by
    intro hp
    rw [List.isEmpty_iff] at hp
    rw [hp, choose_best_player_nil] at hsel
    cases hsel
  by_cases hicon : (PLAYER_ICONS.lookup (strLower n)).isSome = true
  · have hi : (get_player_icon n != DEFAULT_ICON) = true := by
      rw [get_player_icon_ne_default]; exact hicon
    refine ⟨[("text", JVal.jstr (format_display_text info)),
      ("tooltip", JVal.jstr (tooltipFor info n)),
      ("class", JVal.jstr ("player-" ++ strLower n)),
      ("alt", JVal.jstr n),
      ("percentage", JVal.jnum 0),
      ("icon", JVal.jstr (get_player_icon n))], ?_, ?_, ?_, ?_, ?_, ?_, ?_, ?_⟩
    · simp [mainEmits, hb, hne, hsel, hmi, hi]
    · simp [hicon]
    · simp [List.lookup]
    · simp [List.lookup]
    · simp [List.lookup]
    · simp [List.lookup]
    · simp [List.lookup]
    · rw [if_pos hicon]
      simp [List.lookup]
  · have hi : (get_player_icon n != DEFAULT_ICON) = false := by
      rw [get_player_icon_ne_default]
      exact Bool.not_eq_true _ ▸ hicon
    refine ⟨[("text", JVal.jstr (format_display_text info)),
      ("tooltip", JVal.jstr (tooltipFor info n)),
      ("class", JVal.jstr ("player-" ++ strLower n)),
      ("alt", JVal.jstr n),
      ("percentage", JVal.jnum 0)], ?_, ?_, ?_, ?_, ?_, ?_, ?_, ?_⟩
    · simp [mainEmits, hb, hne, hsel, hmi, hi]
    · simp [hicon]
    · simp [List.lookup]
    · simp [List.lookup]
    · simp [List.lookup]
    · simp [List.lookup]
    · simp [List.lookup]
    · rw [if_neg hicon]
      simp [List.lookup]

/-- Witness for claim C7 at a Playing spotify player with artist A and title
T. -/
theorem success_output_fields_witness :
    ∃ o : JObj, mainEmits playingEnv = [o] ∧
      o.map Prod.fst =
        ["text", "tooltip", "class", "alt", "percentage"] ++
          (if (PLAYER_ICONS.lookup (strLower "spotify")).isSome then ["icon"] else []) ∧
      o.lookup "text" = some (JVal.jstr (format_display_text playingInfo)) ∧
      o.lookup "tooltip" = some (JVal.jstr (tooltipFor playingInfo "spotify")) ∧
      o.lookup "class" = some (JVal.jstr ("player-" ++ strLower "spotify")) ∧
      o.lookup "alt" = some (JVal.jstr "spotify") ∧
      o.lookup "percentage" = some (JVal.jnum 0) ∧
      (o.lookup "icon" = if (PLAYER_ICONS.lookup (strLower "spotify")).isSome
        then some (JVal.jstr (get_player_icon "spotify")) else none) :=
  success_output_fields playingEnv playingBus playingPlayer "spotify" playingInfo
    rfl (by decide) (by decide)

end Mediaplayer

namespace Fetcher

/-- Each scheduled attempt produces exactly one log-line group, whatever its
outcome. -/
theorem run_attempts_length (hs : List HttpOutcome) (fs : FS) :
    (run_attempts hs fs).2.length = hs.length := by
  induction hs generalizing fs with
  | nil => rfl
  | cons h rest ih => simp [run_attempts, ih]

/-- Claim C6: a 4xx or 5xx response leaves the destination file untouched,
produces exactly one failure log line, and does not stop the attempt
sequence. -/
theorem nonsuccess_status_aborts_before_write
    (fs : FS) (c : Nat) (body : List Nat) (rest : List HttpOutcome)
    (h4 : 400 ≤ c) (h6 : c < 600) :
    ((download_file (HttpOutcome.response c body) fs).1.file = fs.file) ∧
    (((download_file (HttpOutcome.response c body) fs).2.filter isFailureLine).length
      = 1) ∧
    ((run_attempts (HttpOutcome.response c body :: rest) fs).2.length
      = rest.length + 1) := by
  have key : download_file (HttpOutcome.response c body) fs =
      (⟨true, fs.file⟩,
        (if fs.dirExists then [LogMsg.start]
         else [LogMsg.start, LogMsg.mkdirMsg SAVE_DIRECTORY]) ++ [LogMsg.netFail]) := by
    simp only [download_file]
    rw [if_pos ⟨h4, h6⟩]
  refine ⟨by rw [key], ?_, ?_⟩
  · rw [key]
    by_cases hd : fs.dirExists = true <;> simp [hd, isFailureLine]
  · rw [run_attempts_length]
    rfl

/-- Witness for claim C6 at a 404 response against an existing directory. -/
theorem nonsuccess_status_aborts_before_write_witness :
    ((download_file (HttpOutcome.response 404 []) fsReady).1.file = fsReady.file) ∧
    (((download_file (HttpOutcome.response 404 []) fsReady).2.filter isFailureLine).length
      = 1) ∧
    ((run_attempts (HttpOutcome.response 404 [] :: []) fsReady).2.length
      = List.length ([] : List HttpOutcome) + 1) :=
  nonsuccess_status_aborts_before_write fsReady 404 [] [] (by decide) (by decide)

/-- Counterexample to claim C9 as stated: a successful attempt against an
existing directory prints two log lines (the start line and the success line),
not exactly one. -/
theorem download_log_not_single_line :
    (download_file (HttpOutcome.response 200 [1]) fsReady).2.length = 2 ∧
    ¬((download_file (HttpOutcome.response 200 [1]) fsReady).2.length = 1) := by
  refine ⟨?_, ?_⟩ <;> decide

/-- Amended claim C9: every attempt logs the start line first, then the
directory-creation line when the directory was absent, then exactly one
outcome line (success-with-path or failure-with-reason) which closes the log:
two lines per attempt, three when the directory was created. -/
theorem download_log_start_then_outcome (h : HttpOutcome) (fs : FS) :
    ((download_file h fs).2.head? = some LogMsg.start) ∧
    ((download_file h fs).2.length = if fs.dirExists then 2 else 3) ∧
    (((download_file h fs).2.filter isOutcomeLine).length = 1) ∧
    (∃ m, (download_file h fs).2.getLast? = some m ∧ isOutcomeLine m = true) := by
  cases h with
  | connError =>
    by_cases hd : fs.dirExists = true
    · have e : download_file HttpOutcome.connError fs =
          (⟨true, fs.file⟩, [LogMsg.start, LogMsg.netFail]) := by
        simp [download_file, hd]
      rw [e]
      exact ⟨rfl, by simp [hd], rfl, LogMsg.netFail, rfl, rfl⟩
    · have hd' : fs.dirExists = false := by
        rw [← Bool.not_eq_true]; exact hd
      have e : download_file HttpOutcome.connError fs =
          (⟨true, fs.file⟩,
            [LogMsg.start, LogMsg.mkdirMsg SAVE_DIRECTORY, LogMsg.netFail]) := by
        simp [download_file, hd']
      rw [e]
      exact ⟨rfl, by simp [hd'], rfl, LogMsg.netFail, rfl, rfl⟩
  | response c body =>
    by_cases hb : 400 ≤ c ∧ c < 600
    · by_cases hd : fs.dirExists = true
      · have e : download_file (HttpOutcome.response c body) fs =
            (⟨true, fs.file⟩, [LogMsg.start, LogMsg.netFail]) := by
          simp only [download_file]
          rw [if_pos hb]
          simp [hd]
        rw [e]
        exact ⟨rfl, by simp [hd], rfl, LogMsg.netFail, rfl, rfl⟩
      · have hd' : fs.dirExists = false := by
          rw [← Bool.not_eq_true]; exact hd
        have e : download_file (HttpOutcome.response c body) fs =
            (⟨true, fs.file⟩,
              [LogMsg.start, LogMsg.mkdirMsg SAVE_DIRECTORY, LogMsg.netFail]) := by
          simp only [download_file]
          rw [if_pos hb]
          simp [hd']
        rw [e]
        exact ⟨rfl, by simp [hd'], rfl, LogMsg.netFail, rfl, rfl⟩
    · by_cases hd : fs.dirExists = true
      · have e : download_file (HttpOutcome.response c body) fs =
            (⟨true, some body⟩, [LogMsg.start, LogMsg.success save_path]) := by
          simp only [download_file]
          rw [if_neg hb]
          simp [hd]
        rw [e]
        exact ⟨rfl, by simp [hd], rfl, LogMsg.success save_path, rfl, rfl⟩
      · have hd' : fs.dirExists = false := by
          rw [← Bool.not_eq_true]; exact hd
        have e : download_file (HttpOutcome.response c body) fs =
            (⟨true, some body⟩,
              [LogMsg.start, LogMsg.mkdirMsg SAVE_DIRECTORY,
                LogMsg.success save_path]) := by
          simp only [download_file]
          rw [if_neg hb]
          simp [hd']
        rw [e]
        exact ⟨rfl, by simp [hd'], rfl, LogMsg.success save_path, rfl, rfl⟩

/-- Claim C10: when the destination directory is absent at the start of an
attempt, it is created right after the start line and before the request
outcome is examined, so it exists after the attempt whatever the outcome. -/
theorem mkdir_before_request (h : HttpOutcome) (fs : FS) (hd : fs.dirExists = false) :
    ((download_file h fs).1.dirExists = true) ∧
    ((download_file h fs).2.take 2 = [LogMsg.start, LogMsg.mkdirMsg SAVE_DIRECTORY]) := by
  cases h with
  | connError =>
    have e : download_file HttpOutcome.connError fs =
        (⟨true, fs.file⟩,
          [LogMsg.start, LogMsg.mkdirMsg SAVE_DIRECTORY, LogMsg.netFail]) := by
      simp [download_file, hd]
    rw [e]
    exact ⟨rfl, rfl⟩
  | response c body =>
    by_cases hb : 400 ≤ c ∧ c < 600
    · have e : download_file (HttpOutcome.response c body) fs =
          (⟨true, fs.file⟩,
            [LogMsg.start, LogMsg.mkdirMsg SAVE_DIRECTORY, LogMsg.netFail]) := by
        simp only [download_file]
        rw [if_pos hb]
        simp [hd]
      rw [e]
      exact ⟨rfl, rfl⟩
    · have e : download_file (HttpOutcome.response c body) fs =
          (⟨true, some body⟩,
            [LogMsg.start, LogMsg.mkdirMsg SAVE_DIRECTORY,
              LogMsg.success save_path]) := by
        simp only [download_file]
        rw [if_neg hb]
        simp [hd]
      rw [e]
      exact ⟨rfl, rfl⟩

/-- Witness for claim C10 at a transport failure against a bare filesystem. -/
theorem mkdir_before_request_witness :
    ((download_file HttpOutcome.connError fsBare).1.dirExists = true) ∧
    ((download_file HttpOutcome.connError fsBare).2.take 2 =
      [LogMsg.start, LogMsg.mkdirMsg SAVE_DIRECTORY]) :=
  mkdir_before_request HttpOutcome.connError fsBare rfl

/-- Poll loop checks exactly once per second: the checked seconds of an n-step
trace are the first n seconds in order, so the loop neither busy-spins nor
skips a check. -/
theorem pollTrace_map_fst (k : Nat) : ∀ (now nr : Nat),
    (pollTrace k now nr).map Prod.fst = List.range' now k := by
  induction k with
  | zero => intro now nr; rfl
  | succ k ih =>
    intro now nr
    rw [pollTrace, List.range'_succ]
    by_cases h : nr ≤ now
    · rw [if_pos h, List.map_cons, ih]
    · rw [if_neg h, List.map_cons, ih]

/-- Firing times of the poll loop: starting strictly inside the hour that ends
at the pending deadline, the job fires exactly at the multiples of 3600 that
the trace reaches. -/
theorem pollTrace_fired (k : Nat) : ∀ (now m : Nat), 0 < m →
    (m - 1) * 3600 < now → now ≤ m * 3600 →
    ((pollTrace k now (m * 3600)).filter (fun x => x.2)).map (fun x => x.1) =
      (List.range' now k).filter (fun t => t % 3600 == 0) := by
  induction k with
  | zero => intro now m hm h1 h2; rfl
  | succ k ih =>
    intro now m hm h1 h2
    by_cases h : m * 3600 ≤ now
    · have hnow : now = m * 3600 := Nat.le_antisymm h2 h
      have hstep : now + INTERVAL_SECONDS = (m + 1) * 3600 := by
        rw [INTERVAL_SECONDS]; omega
      have hmod : (now % 3600 == 0) = true := by
        rw [hnow]
        simp [Nat.mul_mod_left]
      have hrec := ih (now + 1) (m + 1) (by omega) (by omega) (by omega)
      rw [pollTrace, if_pos h, hstep, List.range'_succ]
      simp only [List.filter_cons, hmod, List.map_cons, if_true]
      simp [hrec]
    · have h' : now < m * 3600 := Nat.lt_of_not_le h
      have hne : ¬(now % 3600 = 0) := by omega
      have hmod : (now % 3600 == 0) = false := by
        rw [beq_eq_false_iff_ne]; exact hne
      have hrec := ih (now + 1) m hm (by omega) (by omega)
      rw [pollTrace, if_neg h, List.range'_succ]
      simp only [List.filter_cons, hmod, if_false]
      simp [hrec]

/-- Multiples of 3600 among the first k seconds after time zero. -/
theorem filter_multiples (k : Nat) :
    (List.range' 1 k).filter (fun t => t % 3600 == 0) =
      (List.range' 1 (k / 3600)).map (fun j => j * 3600) := by
  induction k with
  | zero => rfl
  | succ k ih =>
    rw [List.range'_1_concat, List.filter_append, ih]
    by_cases h : (k + 1) % 3600 = 0
    · have hq : (k + 1) / 3600 = k / 3600 + 1 := by omega
      have hmod : ((1 + k) % 3600 == 0) = true := by
        simp only [beq_iff_eq]
        omega
      have hval : 1 + k = (1 + k / 3600) * 3600 := by omega
      rw [hq, List.range'_1_concat, List.map_append]
      congr 1
      rw [List.filter_cons, hmod]
      simp only [if_true, List.filter_nil, List.map_cons, List.map_nil]
      rw [hval]
    · have hq : (k + 1) / 3600 = k / 3600 := by omega
      have hmod : ((1 + k) % 3600 == 0) = false := by
        rw [beq_eq_false_iff_ne]
        omega
      rw [hq, List.filter_cons, hmod]
      simp

/-- Closed form of the attempt schedule: within the first n seconds the
attempts happen exactly at time zero and at every whole hour reached by the
poll loop. -/
theorem attemptTimes_closed (n : Nat) :
    attemptTimes n =
      (List.range ((n - 1) / INTERVAL_SECONDS + 1)).map (fun j => j * INTERVAL_SECONDS) := by
  cases n with
  | zero => decide
  | succ k =>
    rw [attemptTimes, INTERVAL_SECONDS]
    rw [pollTrace, if_neg (by omega)]
    have e := pollTrace_fired k 1 1 (by omega) (by omega) (by omega)
    rw [one_mul] at e
    have hfc : (((0, false) :: pollTrace k 1 3600).filter (fun x => x.2)) =
        (pollTrace k 1 3600).filter (fun x => x.2) := by simp
    simp only [Nat.zero_add]
    rw [hfc, e, filter_multiples]
    have hq : k + 1 - 1 = k := by omega
    rw [hq, List.range_eq_range', List.range'_succ]
    simp

/-- Counterexample to claim C8 as stated: the poll sleep is exactly one
second, so the check granularity is not sub-second. -/
theorem poll_sleep_not_subsecond :
    POLL_SLEEP_SECONDS = 1 ∧ ¬(POLL_SLEEP_SECONDS < 1) := by
  constructor
  · rfl
  · rw [POLL_SLEEP_SECONDS]
    exact lt_irrefl 1

/-- Amended claim C8: one attempt fires immediately at process start, then one
at every whole hour the loop reaches, indefinitely; the wait is a poll loop
that checks exactly once per second (granularity one second, not sub-second),
and in this discrete model each due hour fires at its exact second, so the
schedule is never missed by more than the poll granularity, and the loop
advances time at every check, so it does not busy-spin. -/
theorem schedule_immediate_then_hourly (n : Nat) :
    (attemptTimes n).head? = some 0 ∧
    attemptTimes n =
      (List.range ((n - 1) / INTERVAL_SECONDS + 1)).map (fun j => j * INTERVAL_SECONDS) ∧
    (pollTrace n 0 INTERVAL_SECONDS).map Prod.fst = List.range n ∧
    POLL_SLEEP_SECONDS = 1 :=
  ⟨rfl, attemptTimes_closed n,
    by rw [pollTrace_map_fst]; exact (List.range_eq_range' n).symm, rfl⟩

end Fetcher
